import Mathlib

/-!
Verification of the battery cell analyzer (`src/app.py`).

The numeric domain of the program is modelled by `ℚ`; Python's `round(x, d)`
(round-half-to-even on the scaled value) is modelled by `pyRound`, and Python's
`str.upper` (ASCII case folding, as exercised by the two-tag chemistry table)
by `str_upper`.  The one random draw (`random.uniform(25, 40)`) is passed in as
an explicit argument, so `calculate_cell_parameters` takes the sampled value as
its last parameter.
-/

namespace BatteryAnalyzer

/-- Round-half-to-even on `ℚ`, the tie-breaking rule of Python's `round`. -/
def roundHalfEven (x : ℚ) : ℤ :=
  if x - ⌊x⌋ < 1 / 2 then ⌊x⌋
  else if 1 / 2 < x - ⌊x⌋ then ⌊x⌋ + 1
  else if ⌊x⌋ % 2 = 0 then ⌊x⌋ else ⌊x⌋ + 1

/-- Model of Python's `round(x, d)` on exact rationals. -/
def pyRound (d : ℕ) (x : ℚ) : ℚ :=
  (roundHalfEven (x * 10 ^ d) : ℚ) / 10 ^ d

/-- Model of Python's `str.upper` (per-character ASCII upcasing). -/
def str_upper (s : String) : String :=
  ⟨s.data.map Char.toUpper⟩

/-- The parameter dictionary returned by `calculate_cell_parameters`
(`src/app.py`, lines 82–90). -/
structure CellParams where
  voltage : ℚ
  current : ℚ
  temperature : ℚ
  capacity : ℚ
  max_voltage : ℚ
  min_voltage : ℚ
  voltage_range_percent : ℚ
deriving DecidableEq

/-- Embedding of `calculate_cell_parameters` (`src/app.py`, lines 57–90).
The value drawn by `random.uniform(25, 40)` is the explicit argument `rand`. -/
def calculate_cell_parameters (cell_type : String) (current : ℚ) (rand : ℚ) :
    CellParams :=
  let (voltage, max_voltage, min_voltage) :=
    if str_upper cell_type = "LFP" then
      ((3.2 : ℚ), (4.0 : ℚ), (2.8 : ℚ))
    else
      ((3.6 : ℚ), (3.4 : ℚ), (3.2 : ℚ))
  let temperature := pyRound 1 rand
  let capacity := pyRound 2 (voltage * current)
  let voltage_range_percent :=
    if max_voltage > min_voltage then
      pyRound 1 (((voltage - min_voltage) / (max_voltage - min_voltage)) * 100)
    else
      (50.0 : ℚ)
  { voltage := voltage
    current := current
    temperature := temperature
    capacity := capacity
    max_voltage := max_voltage
    min_voltage := min_voltage
    voltage_range_percent := voltage_range_percent }

/-- The display clamp applied to the range percentage by `display_cell_result`
(`src/app.py`, line 120): `max(0.0, min(1.0, voltage_range_percent / 100))`. -/
def progress_value (voltage_range_percent : ℚ) : ℚ :=
  max 0 (min 1 (voltage_range_percent / 100))

/-- One entry of `cells_data` as built in `main` (`src/app.py`, lines 166–170). -/
structure CellConfig where
  id : ℕ
  type : String
  current : ℚ
deriving DecidableEq

/-- One entry of `results` as built in `main` (`src/app.py`, lines 185–189):
the cell id and type together with the spliced parameter dictionary. -/
structure CellResult where
  id : ℕ
  type : String
  voltage : ℚ
  current : ℚ
  temperature : ℚ
  capacity : ℚ
  max_voltage : ℚ
  min_voltage : ℚ
  voltage_range_percent : ℚ
deriving DecidableEq

/-- Builds the result record for one cell (`src/app.py`, lines 184–189):
`{"id": cell["id"], "type": cell["type"], **params}`. -/
def cell_result (cell : CellConfig) (rand : ℚ) : CellResult :=
  let params := calculate_cell_parameters cell.type cell.current rand
  { id := cell.id
    type := cell.type
    voltage := params.voltage
    current := params.current
    temperature := params.temperature
    capacity := params.capacity
    max_voltage := params.max_voltage
    min_voltage := params.min_voltage
    voltage_range_percent := params.voltage_range_percent }

/-- The orchestration loop of `main` (`src/app.py`, lines 182–189): one call of
`calculate_cell_parameters` per configured cell, in input order.  The random
source is modelled as a stream `rand` of draws, consumed one per cell. -/
def analyze_cells : List CellConfig → (ℕ → ℚ) → List CellResult
  | [], _ => []
  | cell :: rest, rand =>
      cell_result cell (rand 0) :: analyze_cells rest (fun n => rand (n + 1))

/-- Failure of the aggregation step on an empty result list (in the source the
average would divide by `len(results) = 0` and `max` would see an empty
sequence). -/
inductive AggError where
  | emptyResultSet
deriving DecidableEq

/-- The four summary metrics of `main` (`src/app.py`, lines 194–197). -/
structure AnalysisSummary where
  total_capacity : ℚ
  avg_temperature : ℚ
  peak_voltage : ℚ
  cell_count : ℕ
deriving DecidableEq

/-- Embedding of the aggregation step (`src/app.py`, lines 194–197):
`total_capacity = sum(...)`, `avg_temperature = round(sum(...) / len(results), 1)`,
`peak_voltage = max(...)`, `cell_count = len(results)`.  On an empty list the
source would fail (division by zero, `max` of an empty sequence), modelled as
an `AggError`. -/
def aggregate (results : List CellResult) : Except AggError AnalysisSummary :=
  match results with
  | [] => Except.error AggError.emptyResultSet
  | r :: rs =>
      Except.ok
        { total_capacity := ((r :: rs).map fun x => x.capacity).sum
          avg_temperature :=
            pyRound 1 (((r :: rs).map fun x => x.temperature).sum / (r :: rs).length)
          peak_voltage := (rs.map fun x => x.voltage).foldl max r.voltage
          cell_count := (r :: rs).length }

/-! helper lemmas -/

/-- Unfolds `calculate_cell_parameters` on the LFP branch. -/
lemma calculate_cell_parameters_of_lfp (s : String) (c r : ℚ)
    (h : str_upper s = "LFP") :
    calculate_cell_parameters s c r =
      { voltage := 3.2
        current := c
        temperature := pyRound 1 r
        capacity := pyRound 2 (3.2 * c)
        max_voltage := 4.0
        min_voltage := 2.8
        voltage_range_percent := 33.3 } := by
  rw [calculate_cell_parameters, h]
  norm_num [pyRound, roundHalfEven]

/-- Unfolds `calculate_cell_parameters` on the default (MNC) branch. -/
lemma calculate_cell_parameters_of_not_lfp (s : String) (c r : ℚ)
    (h : ¬ str_upper s = "LFP") :
    calculate_cell_parameters s c r =
      { voltage := 3.6
        current := c
        temperature := pyRound 1 r
        capacity := pyRound 2 (3.6 * c)
        max_voltage := 3.4
        min_voltage := 3.2
        voltage_range_percent := 200 } := by
  rw [calculate_cell_parameters, if_neg h]
  norm_num [pyRound, roundHalfEven]

/-- The rounded value is at most half a unit above the input. -/
lemma roundHalfEven_le (x : ℚ) : (roundHalfEven x : ℚ) ≤ x + 1 / 2 := by
  have h1 : (⌊x⌋ : ℚ) ≤ x := Int.floor_le x
  have h2 : x < ⌊x⌋ + 1 := Int.lt_floor_add_one x
  unfold roundHalfEven
  split_ifs <;> push_cast <;> linarith

/-- The rounded value is at most half a unit below the input. -/
lemma le_roundHalfEven (x : ℚ) : x - 1 / 2 ≤ (roundHalfEven x : ℚ) := by
  have h1 : (⌊x⌋ : ℚ) ≤ x := Int.floor_le x
  have h2 : x < ⌊x⌋ + 1 := Int.lt_floor_add_one x
  unfold roundHalfEven
  split_ifs <;> push_cast <;> linarith

/-- Rounding a nonpositive rational keeps it nonpositive. -/
lemma pyRound_nonpos (d : ℕ) (x : ℚ) (hx : x ≤ 0) : pyRound d x ≤ 0 := by
  have h10 : (0 : ℚ) < 10 ^ d := by positivity
  have hxd : x * 10 ^ d ≤ 0 := mul_nonpos_of_nonpos_of_nonneg hx (le_of_lt h10)
  have hb : (roundHalfEven (x * 10 ^ d) : ℚ) ≤ x * 10 ^ d + 1 / 2 :=
    roundHalfEven_le _
  have h2 : (2 : ℚ) * (roundHalfEven (x * 10 ^ d) : ℚ) ≤ 1 := by linarith
  have h3 : (2 : ℤ) * roundHalfEven (x * 10 ^ d) ≤ 1 := by exact_mod_cast h2
  have h4 : roundHalfEven (x * 10 ^ d) ≤ 0 := by omega
  have h5 : (roundHalfEven (x * 10 ^ d) : ℚ) ≤ 0 := by exact_mod_cast h4
  unfold pyRound
  exact div_nonpos_of_nonpos_of_nonneg h5 (le_of_lt h10)

/-- The seed of a left `max` fold is below the fold's value. -/
lemma le_foldl_max (l : List ℚ) (a : ℚ) : a ≤ l.foldl max a := by
  induction l generalizing a with
  | nil => exact le_refl a
  | cons b t ih => exact le_trans (le_max_left a b) (ih (max a b))

/-- Every member of the list is below the value of a left `max` fold. -/
lemma foldl_max_le_of_mem {l : List ℚ} {b : ℚ} (hb : b ∈ l) (a : ℚ) :
    b ≤ l.foldl max a := by
  induction l generalizing a with
  | nil => cases hb
  | cons c t ih =>
      rcases List.mem_cons.1 hb with h | h
      · subst h
        exact le_trans (le_max_right a b) (le_foldl_max t (max a b))
      · exact ih h (max a c)

/-- A left `max` fold returns its seed or a member of the list. -/
lemma foldl_max_mem (l : List ℚ) (a : ℚ) :
    l.foldl max a = a ∨ l.foldl max a ∈ l := by
  induction l generalizing a with
  | nil => exact Or.inl rfl
  | cons b t ih =>
      rcases ih (max a b) with h | h
      · rcases max_choice a b with hm | hm
        · exact Or.inl (by rw [List.foldl_cons, h, hm])
        · exact Or.inr (by rw [List.foldl_cons, h, hm]; exact List.mem_cons_self b t)
      · exact Or.inr (List.mem_cons_of_mem b h)

/-- Projections of `cell_result` that echo the configuration. -/
lemma cell_result_fields (cell : CellConfig) (rand : ℚ) :
    (cell_result cell rand).id = cell.id ∧
    (cell_result cell rand).type = cell.type ∧
    (cell_result cell rand).current = cell.current := by
  by_cases h : str_upper cell.type = "LFP" <;>
    simp [cell_result, calculate_cell_parameters_of_lfp,
      calculate_cell_parameters_of_not_lfp, h]

/-! claims -/

/-- C1: for every current `c > 0`, `calculate_cell_parameters` returns a
capacity equal to `round(nominal_voltage * c, 2)`, where the nominal voltage is
3.2 when the chemistry tag upcases to "LFP" and 3.6 otherwise. -/
theorem capacity_formula (s : String) (c r : ℚ) (_hc : 0 < c) :
    (calculate_cell_parameters s c r).capacity =
      pyRound 2 ((if str_upper s = "LFP" then (3.2 : ℚ) else 3.6) * c) := by
  by_cases h : str_upper s = "LFP"
  · rw [calculate_cell_parameters_of_lfp s c r h, if_pos h]
  · rw [calculate_cell_parameters_of_not_lfp s c r h, if_neg h]

/-- C1 witness: the lower-case tag "lfp" with current 2 takes the LFP nominal
voltage. -/
theorem capacity_formula_witness :
    (0 : ℚ) < 2 ∧
      (calculate_cell_parameters "lfp" 2 30).capacity =
        pyRound 2 ((if str_upper "lfp" = "LFP" then (3.2 : ℚ) else 3.6) * 2) :=
  ⟨by norm_num, capacity_formula "lfp" 2 30 (by norm_num)⟩

/-- C2: on a non-empty result list the aggregation step succeeds and returns
the exact sum of capacities, the average temperature rounded to one decimal,
the maximum voltage of the list, and the list length. -/
theorem aggregate_nonempty (results : List CellResult) (h : results ≠ []) :
    ∃ s, aggregate results = Except.ok s ∧
      s.total_capacity = (results.map fun x => x.capacity).sum ∧
      s.avg_temperature =
        pyRound 1 ((results.map fun x => x.temperature).sum / results.length) ∧
      s.peak_voltage ∈ results.map (fun x => x.voltage) ∧
      (∀ v ∈ results.map (fun x => x.voltage), v ≤ s.peak_voltage) ∧
      s.cell_count = results.length := by
  match results with
  | [] => exact absurd rfl h
  | r :: rs =>
      refine ⟨_, rfl, rfl, rfl, ?_, ?_, rfl⟩
      · rcases foldl_max_mem (rs.map fun x => x.voltage) r.voltage with h1 | h1
        · rw [List.map_cons, h1]
          exact List.mem_cons_self _ _
        · rw [List.map_cons]
          exact List.mem_cons_of_mem _ h1
      · intro v hv
        rw [List.map_cons] at hv
        rcases List.mem_cons.1 hv with h1 | h1
        · subst h1
          exact le_foldl_max _ _
        · exact foldl_max_le_of_mem h1 _

/-- The two-cell example list of the specification's aggregation test. -/
def sample_results : List CellResult :=
  [{ id := 1, type := "LFP", voltage := 3.2, current := 2, temperature := 30.0,
     capacity := 6.4, max_voltage := 4.0, min_voltage := 2.8,
     voltage_range_percent := 33.3 },
   { id := 2, type := "MNC", voltage := 3.6, current := 1, temperature := 28.0,
     capacity := 3.6, max_voltage := 3.4, min_voltage := 3.2,
     voltage_range_percent := 200 }]

/-- C2 witness: the specification's two-cell example, with the summary values
10.0, 29.0, 3.6 and 2 checked explicitly. -/
theorem aggregate_nonempty_witness :
    (∃ s, aggregate sample_results = Except.ok s ∧
      s.total_capacity = (sample_results.map fun x => x.capacity).sum ∧
      s.avg_temperature =
        pyRound 1
          ((sample_results.map fun x => x.temperature).sum / sample_results.length) ∧
      s.peak_voltage ∈ sample_results.map (fun x => x.voltage) ∧
      (∀ v ∈ sample_results.map (fun x => x.voltage), v ≤ s.peak_voltage) ∧
      s.cell_count = sample_results.length) ∧
    aggregate sample_results =
      Except.ok
        { total_capacity := 10.0, avg_temperature := 29.0, peak_voltage := 3.6,
          cell_count := 2 } :=
  ⟨aggregate_nonempty sample_results (by simp [sample_results]),
   by norm_num [aggregate, sample_results, pyRound, roundHalfEven, max_def]⟩

/-- C3: the aggregation step fails on the empty result list with the
empty-input error kind instead of returning a summary. -/
theorem aggregate_nil : aggregate [] = Except.error AggError.emptyResultSet := rfl

/-- C4: the chemistry profile is selected by upcasing the tag and comparing it
with "LFP"; any other tag — well-formed or not — silently receives the MNC
profile, and the function is total. -/
theorem chemistry_profile (s : String) (c r : ℚ) :
    ((calculate_cell_parameters s c r).voltage,
      (calculate_cell_parameters s c r).max_voltage,
      (calculate_cell_parameters s c r).min_voltage) =
      if str_upper s = "LFP" then ((3.2 : ℚ), (4.0 : ℚ), (2.8 : ℚ))
      else ((3.6 : ℚ), (3.4 : ℚ), (3.2 : ℚ)) := by
  by_cases h : str_upper s = "LFP" <;>
    simp [calculate_cell_parameters_of_lfp, calculate_cell_parameters_of_not_lfp, h]

/-- C5 counterexample: the MNC profile has max_voltage 3.4 strictly greater
than min_voltage 3.2, so the formula branch (not the 50.0 fallback) runs and
yields 200.0. -/
theorem mnc_range_percent_counterexample :
    (calculate_cell_parameters "MNC" 1 30).voltage_range_percent = 200 ∧
    (calculate_cell_parameters "MNC" 1 30).voltage_range_percent ≠ 50 ∧
    ¬ (calculate_cell_parameters "MNC" 1 30).max_voltage ≤
        (calculate_cell_parameters "MNC" 1 30).min_voltage := by
  have h : ¬ str_upper "MNC" = "LFP" := by decide
  rw [calculate_cell_parameters_of_not_lfp _ _ _ h]
  norm_num

/-- C5 (amended): the range percentage follows the formula when
max_voltage > min_voltage and the 50.0 fallback otherwise; concretely every
LFP result has 33.3 and every other result has 200.0, because the MNC profile
has max 3.4 > min 3.2 and so takes the formula branch. -/
theorem voltage_range_percent_formula (s : String) (c r : ℚ) :
    ((calculate_cell_parameters s c r).voltage_range_percent =
      if (calculate_cell_parameters s c r).max_voltage >
          (calculate_cell_parameters s c r).min_voltage then
        pyRound 1
          ((((calculate_cell_parameters s c r).voltage -
              (calculate_cell_parameters s c r).min_voltage) /
            ((calculate_cell_parameters s c r).max_voltage -
              (calculate_cell_parameters s c r).min_voltage)) * 100)
      else 50.0) ∧
    (calculate_cell_parameters s c r).voltage_range_percent =
      (if str_upper s = "LFP" then (33.3 : ℚ) else 200) := by
  by_cases h : str_upper s = "LFP"
  · rw [calculate_cell_parameters_of_lfp s c r h]
    norm_num [pyRound, roundHalfEven, h]
  · rw [calculate_cell_parameters_of_not_lfp s c r h]
    norm_num [pyRound, roundHalfEven, h]

/-- C6: when the sampled value lies in [25, 40], the temperature field lies in
[25, 40] and carries at most one decimal place. -/
theorem temperature_bounds (s : String) (c r : ℚ) (h1 : 25 ≤ r) (h2 : r ≤ 40) :
    25 ≤ (calculate_cell_parameters s c r).temperature ∧
    (calculate_cell_parameters s c r).temperature ≤ 40 ∧
    ∃ k : ℤ, (calculate_cell_parameters s c r).temperature = (k : ℚ) / 10 := by
  have ht : (calculate_cell_parameters s c r).temperature = pyRound 1 r := by
    by_cases h : str_upper s = "LFP" <;>
      simp [calculate_cell_parameters_of_lfp, calculate_cell_parameters_of_not_lfp, h]
  rw [ht]
  unfold pyRound
  simp only [pow_one]
  have hup : (roundHalfEven (r * 10) : ℚ) ≤ r * 10 + 1 / 2 := roundHalfEven_le _
  have hlo : r * 10 - 1 / 2 ≤ (roundHalfEven (r * 10) : ℚ) := le_roundHalfEven _
  have hk1 : (250 : ℤ) ≤ roundHalfEven (r * 10) := by
    have ha : (499 : ℚ) ≤ 2 * (roundHalfEven (r * 10) : ℚ) := by linarith
    have hb : (499 : ℤ) ≤ 2 * roundHalfEven (r * 10) := by exact_mod_cast ha
    omega
  have hk2 : roundHalfEven (r * 10) ≤ 400 := by
    have ha : 2 * (roundHalfEven (r * 10) : ℚ) ≤ 801 := by linarith
    have hb : 2 * roundHalfEven (r * 10) ≤ (801 : ℤ) := by exact_mod_cast ha
    omega
  have hc1 : (250 : ℚ) ≤ (roundHalfEven (r * 10) : ℚ) := by exact_mod_cast hk1
  have hc2 : (roundHalfEven (r * 10) : ℚ) ≤ 400 := by exact_mod_cast hk2
  exact ⟨by linarith, by linarith, ⟨roundHalfEven (r * 10), rfl⟩⟩

/-- C6 witness at tag "LFP", current 2 and sampled value 30. -/
theorem temperature_bounds_witness :
    (25 : ℚ) ≤ 30 ∧ (30 : ℚ) ≤ 40 ∧
      (25 ≤ (calculate_cell_parameters "LFP" 2 30).temperature ∧
        (calculate_cell_parameters "LFP" 2 30).temperature ≤ 40 ∧
        ∃ k : ℤ, (calculate_cell_parameters "LFP" 2 30).temperature = (k : ℚ) / 10) :=
  ⟨by norm_num, by norm_num,
    temperature_bounds "LFP" 2 30 (by norm_num) (by norm_num)⟩

/-- C7: two derivations with the same tag and current agree on every field
except the temperature, whatever the two random draws were. -/
theorem derive_deterministic (s : String) (c r₁ r₂ : ℚ) :
    (calculate_cell_parameters s c r₁).voltage =
      (calculate_cell_parameters s c r₂).voltage ∧
    (calculate_cell_parameters s c r₁).capacity =
      (calculate_cell_parameters s c r₂).capacity ∧
    (calculate_cell_parameters s c r₁).max_voltage =
      (calculate_cell_parameters s c r₂).max_voltage ∧
    (calculate_cell_parameters s c r₁).min_voltage =
      (calculate_cell_parameters s c r₂).min_voltage ∧
    (calculate_cell_parameters s c r₁).voltage_range_percent =
      (calculate_cell_parameters s c r₂).voltage_range_percent := by
  by_cases h : str_upper s = "LFP" <;>
    simp [calculate_cell_parameters_of_lfp, calculate_cell_parameters_of_not_lfp, h]

/-- C8: the orchestration loop derives once per configuration with the matching
draw of the random stream, so the results line up with the configurations in
order, echoing id, tag and current. -/
theorem analyze_cells_in_order (cells : List CellConfig) (rand : ℕ → ℚ) :
    ((analyze_cells cells rand).map fun res => (res.id, res.type, res.current)) =
      (cells.map fun cell => (cell.id, cell.type, cell.current)) ∧
    ∀ i : ℕ,
      (analyze_cells cells rand)[i]? =
        (cells[i]?).map fun cell => cell_result cell (rand i) := by
  induction cells generalizing rand with
  | nil => exact ⟨rfl, fun i => by simp [analyze_cells]⟩
  | cons cell rest ih =>
      constructor
      · rw [analyze_cells, List.map_cons, List.map_cons,
          (ih (fun n => rand (n + 1))).1]
        rcases cell_result_fields cell (rand 0) with ⟨ha, hb, hc⟩
        rw [ha, hb, hc]
      · intro i
        cases i with
        | zero => simp [analyze_cells]
        | succ n =>
            simpa [analyze_cells] using (ih (fun n => rand (n + 1))).2 n

/-- C9 counterexample: an MNC derivation has a range percentage of 200, which
exceeds 100, and on it the display clamp is not the identity scaling. -/
theorem range_percent_clamp_counterexample :
    ¬ (calculate_cell_parameters "MNC" 1 30).voltage_range_percent ≤ 100 ∧
    progress_value (calculate_cell_parameters "MNC" 1 30).voltage_range_percent ≠
      (calculate_cell_parameters "MNC" 1 30).voltage_range_percent / 100 := by
  have h : ¬ str_upper "MNC" = "LFP" := by decide
  rw [calculate_cell_parameters_of_not_lfp _ _ _ h]
  norm_num [progress_value]

/-- C9 (amended): the only producible range percentages are 33.3 (LFP) and
200.0 (all other tags); the display clamp is a no-op on the LFP value but caps
the 200.0 of the default branch at a full bar. -/
theorem range_percent_producible (s : String) (c r : ℚ) :
    ((calculate_cell_parameters s c r).voltage_range_percent = 33.3 ∨
      (calculate_cell_parameters s c r).voltage_range_percent = 200) ∧
    0 ≤ (calculate_cell_parameters s c r).voltage_range_percent ∧
    progress_value (calculate_cell_parameters s c r).voltage_range_percent =
      (if str_upper s = "LFP" then
        (calculate_cell_parameters s c r).voltage_range_percent / 100
      else 1) := by
  by_cases h : str_upper s = "LFP"
  · rw [calculate_cell_parameters_of_lfp s c r h]
    norm_num [progress_value, h]
  · rw [calculate_cell_parameters_of_not_lfp s c r h]
    norm_num [progress_value, h]

/-- C10: the deriver is total — no current validation exists — and for every
current, including zero and negative ones, the capacity is the rounded product
of voltage and current, hence nonpositive whenever the current is. -/
theorem derive_total_capacity (s : String) (c r : ℚ) :
    (calculate_cell_parameters s c r).capacity =
      pyRound 2 ((calculate_cell_parameters s c r).voltage * c) ∧
    (c ≤ 0 → (calculate_cell_parameters s c r).capacity ≤ 0) := by
  by_cases h : str_upper s = "LFP"
  · rw [calculate_cell_parameters_of_lfp s c r h]
    exact ⟨rfl, fun hc =>
      pyRound_nonpos 2 _ (mul_nonpos_of_nonneg_of_nonpos (by norm_num) hc)⟩
  · rw [calculate_cell_parameters_of_not_lfp s c r h]
    exact ⟨rfl, fun hc =>
      pyRound_nonpos 2 _ (mul_nonpos_of_nonneg_of_nonpos (by norm_num) hc)⟩

/-- C10 witness: a negative current of -1 on the default branch yields the
nonpositive capacity round(3.6 * -1, 2). -/
theorem derive_total_capacity_witness :
    ((calculate_cell_parameters "MNC" (-1) 30).capacity =
      pyRound 2 ((calculate_cell_parameters "MNC" (-1) 30).voltage * (-1))) ∧
    (-1 : ℚ) ≤ 0 ∧
    (calculate_cell_parameters "MNC" (-1) 30).capacity ≤ 0 :=
  ⟨(derive_total_capacity "MNC" (-1) 30).1, by norm_num,
    (derive_total_capacity "MNC" (-1) 30).2 (by norm_num)⟩

end BatteryAnalyzer
